import Mathlib

/-!
Verification of the configuration-ingestion component of YCSB-runner
(`runner/config.py`, class `RunnerConfig`).

The embedding models the code over parsed INI data (the output of Python's
`configparser.ConfigParser.read`): a configuration source is a list of named
sections together with the `[DEFAULT]` entries.  String manipulation is
implemented structurally over `List Char` so that every definition evaluates
by kernel reduction.  Machinery of Python's `configparser` standard library
that the code relies on (`get`/`getint`/`getboolean` with the section as the
first positional argument, option-name case folding, `BOOLEAN_STATES`,
fall-back to the `DEFAULT` section) is embedded faithfully; interpolation is
not modelled (no input considered here contains `%`).
-/

namespace Runner

/-- ASCII lower-casing of one character, as Python's `str.lower` acts on the
ASCII inputs used throughout this configuration format. -/
def lcChar (c : Char) : Char :=
  if 'A' ≤ c ∧ c ≤ 'Z' then Char.ofNat (c.toNat + 32) else c

/-- `str.lower`, structurally over the character list. -/
def pyLower (s : String) : String := ⟨s.data.map lcChar⟩

/-- Whitespace recognised by `str.strip`. -/
def isSpaceChar (c : Char) : Bool :=
  c = ' ' || c = '\t' || c = '\n' || c = '\r'

/-- `str.strip`, structurally: drop whitespace from both ends. -/
def trimChars (cs : List Char) : List Char :=
  ((cs.dropWhile isSpaceChar).reverse.dropWhile isSpaceChar).reverse

/-- `str.strip` on strings. -/
def pyStrip (s : String) : String := ⟨trimChars s.data⟩

/-- `str.split(',')`: accumulate characters up to each comma. -/
def splitCommaAux : List Char → List Char → List (List Char)
  | [], acc => [acc.reverse]
  | c :: rest, acc =>
    if c = ',' then acc.reverse :: splitCommaAux rest []
    else splitCommaAux rest (c :: acc)

/-- `str.split(',')` on strings. -/
def splitComma (s : String) : List String :=
  (splitCommaAux s.data []).map (fun cs => ⟨cs⟩)

/-- `','.join(...)`. -/
def joinComma : List String → String
  | [] => ""
  | [s] => s
  | s :: rest => s ++ "," ++ joinComma rest

/-- Accumulate a base-10 natural number; `none` on the first non-digit. -/
def digitsToNat : List Char → Nat → Option Nat
  | [], acc => some acc
  | c :: rest, acc =>
    if c.isDigit then digitsToNat rest (acc * 10 + (c.toNat - '0'.toNat))
    else none

/-- Python's `int(str)`: optional surrounding whitespace, optional sign,
then a non-empty run of decimal digits. -/
def parsePyInt (s : String) : Option Int :=
  match trimChars s.data with
  | [] => none
  | '-' :: rest =>
    if rest = [] then none
    else (digitsToNat rest 0).map (fun n => -(n : Int))
  | '+' :: rest =>
    if rest = [] then none
    else (digitsToNat rest 0).map (fun n => (n : Int))
  | t => (digitsToNat t 0).map (fun n => (n : Int))

/-- `configparser.ConfigParser.BOOLEAN_STATES`: the fixed truthy/falsy
tokens of standard INI boolean conventions. -/
def BOOLEAN_STATES : List (String × Bool) :=
  [("1", true), ("yes", true), ("true", true), ("on", true),
   ("0", false), ("no", false), ("false", false), ("off", false)]

/-- Case-sensitive association lookup (keys are compared verbatim). -/
def assocFind {α : Type} : List (String × α) → String → Option α
  | [], _ => none
  | (k, v) :: rest, key => if k = key then some v else assocFind rest key

/-- `ConfigParser.getboolean`'s token recognition: case-fold the raw value
and look it up among `BOOLEAN_STATES`. -/
def parseIniBool (s : String) : Option Bool :=
  assocFind BOOLEAN_STATES (pyLower s)

/-- Split a token at its first `(`; `none` when no `(` occurs. -/
def splitParenAux : List Char → List Char → Option (List Char × List Char)
  | [], _ => none
  | c :: rest, acc =>
    if c = '(' then some (acc.reverse, rest)
    else splitParenAux rest (c :: acc)

/-- Modelled from the spec: `RE_DBNAME_LABEL` lives in `runner/constants.py`,
which is not among the provided sources.  The spec describes the label
pattern as "a bracketed or parenthesized tag appended to the database name";
`extractLabel` returns the bare name with the parenthesized tag removed
together with the captured label text, and the empty-string label when no
tag is present (mirroring `RE_DBNAME_LABEL.search` / `.sub` in
`__process_dbs`). -/
def extractLabel (s : String) : String × String :=
  match splitParenAux s.data [] with
  | none => (s, "")
  | some (before, after) =>
    match after.reverse with
    | ')' :: revLabel => (⟨before⟩, ⟨revLabel.reverse⟩)
    | _ => (s, "")

/-- One parsed INI section: its raw header string and its `key = value`
entries, in file order. -/
structure IniSection where
  name : String
  entries : List (String × String)
deriving DecidableEq

/-- A parsed configuration source, as held by `configparser.ConfigParser`
after `read`: the `[DEFAULT]` entries and the ordered list of named
sections (`sections()` never includes `DEFAULT`). -/
structure IniConfig where
  defaults : List (String × String)
  sections : List IniSection
deriving DecidableEq

/-- The fatal errors of the ingestion path: `configparser.NoSectionError`,
`configparser.NoOptionError` (the spec's `MissingOptionError`, carrying the
section and key) and `ValueError` from `int()`/`getboolean()` (the spec's
`InvalidOptionType`, carrying section, key and offending raw value). -/
inductive ConfigError where
  | noSection : String → ConfigError
  | missingOption : String → String → ConfigError
  | invalidOptionType : String → String → String → ConfigError
deriving DecidableEq

/-- Option lookup inside a section's entry list, with `optionxform` applied:
`configparser` case-folds option names both when storing and when looking
them up. -/
def findOption : List (String × String) → String → Option String
  | [], _ => none
  | (k, v) :: rest, key =>
    if pyLower k = pyLower key then some v else findOption rest key

/-- Find a section by its exact (case-sensitive) name. -/
def findSection : List IniSection → String → Option IniSection
  | [], _ => none
  | s :: rest, name => if s.name = name then some s else findSection rest name

/-- `ConfigParser.get(section, option)`: the section must exist
(`NoSectionError` otherwise); the option is looked up in the section's own
entries and then in the `DEFAULT` entries (`NoOptionError` when absent from
both). -/
def rawGet (cfg : IniConfig) (sec key : String) : Except ConfigError String :=
  match findSection cfg.sections sec with
  | none => .error (.noSection sec)
  | some s =>
    match findOption s.entries key with
    | some v => .ok v
    | none =>
      match findOption cfg.defaults key with
      | some v => .ok v
      | none => .error (.missingOption sec key)

/-- `ConfigParser.getint`: fetch the raw string, then `int(...)`;
an unparsable value raises `ValueError` (`InvalidOptionType`). -/
def getint (cfg : IniConfig) (sec key : String) : Except ConfigError Int :=
  match rawGet cfg sec key with
  | .error e => .error e
  | .ok raw =>
    match parsePyInt raw with
    | some n => .ok n
    | none => .error (.invalidOptionType sec key raw)

/-- `ConfigParser.getboolean`: fetch the raw string, then recognise it among
`BOOLEAN_STATES`; anything else raises `ValueError` (`InvalidOptionType`). -/
def getboolean (cfg : IniConfig) (sec key : String) : Except ConfigError Bool :=
  match rawGet cfg sec key with
  | .error e => .error e
  | .ok raw =>
    match parseIniBool raw with
    | some b => .ok b
    | none => .error (.invalidOptionType sec key raw)

/-- A value produced by option coercion: `int`, `bool` or `str`. -/
inductive OptionValue where
  | intVal : Int → OptionValue
  | boolVal : Bool → OptionValue
  | strVal : String → OptionValue
deriving DecidableEq

/-- The "type marker" stored as a value of `RunnerConfig.OPTION_KEYS`
(`int()`, `bool()`, `str()`, or the lower-casing lambda), which
`__process_config_keys` dispatches on with `type(t) is ...` checks and a
final `callable(t)` check.  The defensive `else` branch (warn and skip a key
whose marker has no recognised type) is unreachable for the four marker
shapes that actually occur in `OPTION_KEYS`. -/
inductive TypeMarker where
  | intMarker : TypeMarker
  | boolMarker : TypeMarker
  | strMarker : TypeMarker
  | lowerFn : TypeMarker
deriving DecidableEq

/-- `RunnerConfig.OPTION_KEYS`, in its (insertion-ordered) dict order. -/
def OPTION_KEYS : List (String × TypeMarker) :=
  [("trials", .intMarker),
   ("min_mpl", .intMarker),
   ("max_mpl", .intMarker),
   ("inc_mpl", .intMarker),
   ("output", .lowerFn),
   ("workload", .strMarker),
   ("output_plots", .boolMarker)]

/-- One iteration of the loop body of `__process_config_keys`: coerce the
value of key `k` in section `sec` according to its type marker. -/
def coerceKey (cfg : IniConfig) (sec k : String) : TypeMarker → Except ConfigError OptionValue
  | .intMarker =>
    match getint cfg sec k with
    | .ok n => .ok (.intVal n)
    | .error e => .error e
  | .boolMarker =>
    match getboolean cfg sec k with
    | .ok b => .ok (.boolVal b)
    | .error e => .error e
  | .strMarker =>
    match rawGet cfg sec k with
    | .ok s => .ok (.strVal s)
    | .error e => .error e
  | .lowerFn =>
    match rawGet cfg sec k with
    | .ok s => .ok (.strVal (pyLower s))
    | .error e => .error e

/-- The loop of `__process_config_keys` over a list of option keys: build
the per-section option mapping in registry order, aborting at the first
failing key (a Python exception propagates out of the loop). -/
def processKeys (cfg : IniConfig) (sec : String) :
    List (String × TypeMarker) → Except ConfigError (List (String × OptionValue))
  | [] => .ok []
  | (k, t) :: rest =>
    match coerceKey cfg sec k t with
    | .error e => .error e
    | .ok v =>
      match processKeys cfg sec rest with
      | .error e => .error e
      | .ok m => .ok ((k, v) :: m)

/-- `RunnerConfig.__process_config_keys(section)`. -/
def processConfigKeys (cfg : IniConfig) (sec : String) :
    Except ConfigError (List (String × OptionValue)) :=
  processKeys cfg sec OPTION_KEYS

/-- Modelled from the spec: `SUPPORTED_DBS` lives in `runner/constants.py`,
which is not among the provided sources.  The spec describes it as "a set of
lowercase canonical database names this component validates against"; its
examples use `mysql` and `postgres`. -/
def SUPPORTED_DBS : List String := ["mysql", "postgres"]

/-- Modelled from the spec: `DEFAULT_TABLENAME` lives in
`runner/constants.py`, which is not among the provided sources.  The spec
describes it as "a fixed string constant" naming the default benchmark
table; the concrete value is YCSB's default table. -/
def DEFAULT_TABLENAME : String := "usertable"

/-- Modelled from the spec: `DbSystem` lives in `runner/dbsystem.py`, which
is not among the provided sources.  The spec's `DatabaseDescriptor` is the
tuple (database type name, resolved option set, label string — possibly
empty, table name), created once and immutable; `__process_dbs` constructs
it as `DbSystem(db, config, label=label, tablename=tablename)`. -/
structure DbSystem where
  dbname : String
  config : List (String × OptionValue)
  label : String
  tablename : String
deriving DecidableEq

/-- The table-name lookup on line 102 of `runner/config.py`:
`self.config.get("tablename", DEFAULT_TABLENAME)`.  With `configparser`,
the first positional argument of `ConfigParser.get` is the *section* and the
second the *option*, so this looks up an option named `DEFAULT_TABLENAME`
inside a section named `tablename` — it does not treat `DEFAULT_TABLENAME`
as a fallback value. -/
def tablenameLookup (cfg : IniConfig) : Except ConfigError String :=
  rawGet cfg "tablename" DEFAULT_TABLENAME

/-- The diagnostic printed by `__process_dbs` for an unsupported database
name: `"Invalid database found: %s. Only (%s) are supported. Skipping..."`
with the invalid entry and the comma-joined supported registry. -/
def invalidDbDiag (db : String) : String :=
  "Invalid database found: " ++ db ++ ". Only (" ++
    joinComma SUPPORTED_DBS ++ ") are supported. Skipping..."

/-- The comma-separated pieces of a section header, whitespace-stripped:
`[s.strip() for s in section.split(',')]`. -/
def piecesOf (header : String) : List String :=
  (splitComma header).map pyStrip

/-- The loop of `__process_dbs` over the header pieces: extract the label,
validate the bare name case-insensitively against `SUPPORTED_DBS` (skipping
unsupported entries with a diagnostic), resolve the table name, and build a
`DbSystem` per valid entry.  Returns the built descriptors together with
the emitted diagnostics; a failing table-name lookup propagates as an
error. -/
def processPieces (cfg : IniConfig) (config : List (String × OptionValue)) :
    List String → Except ConfigError (List DbSystem × List String)
  | [] => .ok ([], [])
  | piece :: rest =>
    let bl := extractLabel piece
    if pyLower bl.1 ∈ SUPPORTED_DBS then
      match tablenameLookup cfg with
      | .error e => .error e
      | .ok tn =>
        match processPieces cfg config rest with
        | .error e => .error e
        | .ok (dbs, diags) => .ok (⟨bl.1, config, bl.2, tn⟩ :: dbs, diags)
    else
      match processPieces cfg config rest with
      | .error e => .error e
      | .ok (dbs, diags) => .ok (dbs, invalidDbDiag bl.1 :: diags)

/-- `RunnerConfig.__process_dbs(section, config)`. -/
def processDbs (cfg : IniConfig) (header : String)
    (config : List (String × OptionValue)) :
    Except ConfigError (List DbSystem × List String) :=
  processPieces cfg config (piecesOf header)

/-- The loop of `__process_sections`: for each section in file order,
resolve the option set first and then the header's database descriptors,
appending the descriptors (and diagnostics) in order; any exception aborts
the whole pass. -/
def processSections (cfg : IniConfig) :
    List IniSection → Except ConfigError (List DbSystem × List String)
  | [] => .ok ([], [])
  | s :: rest =>
    match processConfigKeys cfg s.name with
    | .error e => .error e
    | .ok config =>
      match processDbs cfg s.name config with
      | .error e => .error e
      | .ok (dbs1, diags1) =>
        match processSections cfg rest with
        | .error e => .error e
        | .ok (dbs2, diags2) => .ok (dbs1 ++ dbs2, diags1 ++ diags2)

/-- `RunnerConfig.__init__` / `__process_sections` over an already-parsed
source: the composed descriptor list (`self.dbs`), together with the
diagnostics printed along the way. -/
def load (cfg : IniConfig) : Except ConfigError (List DbSystem × List String) :=
  processSections cfg cfg.sections

/-- The supported (kept) declarations of a list of header pieces, in order:
each piece with its label extracted, kept when the bare name is
case-insensitively in the supported registry. -/
def filterValid (ps : List String) : List (String × String) :=
  ps.filterMap (fun p =>
    let bl := extractLabel p
    if pyLower bl.1 ∈ SUPPORTED_DBS then some bl else none)

/-- The diagnostics emitted for the skipped (unsupported) pieces, in order. -/
def skippedDiags (ps : List String) : List String :=
  ps.filterMap (fun p =>
    let bl := extractLabel p
    if pyLower bl.1 ∈ SUPPORTED_DBS then none else some (invalidDbDiag bl.1))

/-- The valid (supported, non-skipped) database declarations of one section
header, in declaration order: each comma-separated piece, stripped, with its
label extracted, kept when the bare name is (case-insensitively) in the
supported registry. -/
def validPieces (header : String) : List (String × String) :=
  filterValid (piecesOf header)

/-- Declarative per-section descriptor list: when the section's options and
the table name both resolve, one descriptor per valid declaration of the
header, in declaration order. -/
def sectionDescriptors (cfg : IniConfig) (s : IniSection) : List DbSystem :=
  match processConfigKeys cfg s.name, tablenameLookup cfg with
  | .ok config, .ok tn =>
    (validPieces s.name).map (fun bl => ⟨bl.1, config, bl.2, tn⟩)
  | _, _ => []

/-- Every coercion marker fetches the raw value first, so a failing raw
lookup propagates unchanged through `coerceKey`. -/
lemma coerceKey_rawGet_error (cfg : IniConfig) (sec k : String)
    (err : ConfigError) (h : rawGet cfg sec k = .error err) :
    ∀ t, coerceKey cfg sec k t = .error err := by
  intro t
  cases t <;> simp [coerceKey, getint, getboolean, h]

/-- Processing a concatenated key list: once the prefix succeeds, the result
is the prefix's mapping followed by whatever the suffix produces. -/
lemma processKeys_append (cfg : IniConfig) (sec : String)
    (l1 l2 : List (String × TypeMarker)) (m1 : List (String × OptionValue))
    (h : processKeys cfg sec l1 = .ok m1) :
    processKeys cfg sec (l1 ++ l2) =
      match processKeys cfg sec l2 with
      | .ok m2 => .ok (m1 ++ m2)
      | .error e => .error e := by
  induction l1 generalizing m1 with
  | nil =>
    simp [processKeys] at h
    subst h
    simp
    cases processKeys cfg sec l2 <;> simp
  | cons kt rest ih =>
    obtain ⟨k, t⟩ := kt
    simp only [processKeys] at h
    cases hc : coerceKey cfg sec k t with
    | error e => rw [hc] at h; cases h
    | ok v =>
      rw [hc] at h
      cases hr : processKeys cfg sec rest with
      | error e => rw [hr] at h; cases h
      | ok mrest =>
        rw [hr] at h
        cases h
        simp only [List.cons_append, processKeys, hc, List.append_eq]
        rw [ih mrest hr]
        cases processKeys cfg sec l2 <;> simp

/-- If some key of the list has a failing raw lookup, processing the whole
list fails (with that key's error or an earlier one). -/
lemma processKeys_error_of_mem (cfg : IniConfig) (sec : String)
    (ks : List (String × TypeMarker)) (k : String) (t : TypeMarker)
    (err : ConfigError) (hk : (k, t) ∈ ks)
    (h : rawGet cfg sec k = .error err) :
    ∃ e, processKeys cfg sec ks = .error e := by
  induction ks with
  | nil => cases hk
  | cons kt rest ih =>
    obtain ⟨k', t'⟩ := kt
    cases hc : coerceKey cfg sec k' t' with
    | error e => exact ⟨e, by simp [processKeys, hc]⟩
    | ok v =>
      rcases List.mem_cons.mp hk with heq | hmem
      · cases heq
        rw [coerceKey_rawGet_error cfg sec k err h t] at hc
        cases hc
      · obtain ⟨e, he⟩ := ih hmem
        exact ⟨e, by simp [processKeys, hc, he]⟩

/-- When the table-name lookup succeeds, the piece loop always succeeds and
produces exactly one descriptor per supported piece (in declaration order)
and one diagnostic per skipped piece. -/
lemma processPieces_of_tn_ok (cfg : IniConfig)
    (config : List (String × OptionValue)) (tn : String)
    (htn : tablenameLookup cfg = .ok tn) (ps : List String) :
    processPieces cfg config ps =
      .ok ((filterValid ps).map (fun bl => ⟨bl.1, config, bl.2, tn⟩),
           skippedDiags ps) := by
  induction ps with
  | nil => simp [processPieces, filterValid, skippedDiags]
  | cons p rest ih =>
    by_cases hp : pyLower (extractLabel p).1 ∈ SUPPORTED_DBS
    · simp [processPieces, filterValid, skippedDiags, hp, htn, ih]
    · simp [processPieces, filterValid, skippedDiags, hp, ih]

/-- When the table-name lookup fails, the piece loop only succeeds on a list
with no supported piece, and then produces no descriptors. -/
lemma processPieces_of_tn_error (cfg : IniConfig)
    (config : List (String × OptionValue)) (err : ConfigError)
    (htn : tablenameLookup cfg = .error err) (ps : List String)
    (dbs : List DbSystem) (diags : List String)
    (h : processPieces cfg config ps = .ok (dbs, diags)) :
    dbs = [] ∧ filterValid ps = [] := by
  induction ps generalizing dbs diags with
  | nil =>
    simp [processPieces] at h
    simp [filterValid, h.1]
  | cons p rest ih =>
    by_cases hp : pyLower (extractLabel p).1 ∈ SUPPORTED_DBS
    · rw [processPieces, if_pos hp, htn] at h
      cases h
    · rw [processPieces, if_neg hp] at h
      cases hr : processPieces cfg config rest with
      | error e => rw [hr] at h; cases h
      | ok pr =>
        obtain ⟨dbs', diags'⟩ := pr
        rw [hr] at h
        cases h
        obtain ⟨h1, h2⟩ := ih _ _ hr
        refine ⟨h1, ?_⟩
        simp [filterValid, hp] at h2 ⊢
        exact h2

/-- Structure of a successful pass over the sections: the descriptor list is
the in-order concatenation of the per-section declarative descriptor lists,
and each section contributes exactly one descriptor per valid declaration of
its header. -/
lemma processSections_ok (cfg : IniConfig) (ss : List IniSection)
    (dbs : List DbSystem) (diags : List String)
    (h : processSections cfg ss = .ok (dbs, diags)) :
    dbs = (ss.map (sectionDescriptors cfg)).flatten ∧
      ∀ s ∈ ss, (sectionDescriptors cfg s).length = (validPieces s.name).length := by
  induction ss generalizing dbs diags with
  | nil =>
    simp [processSections] at h
    simp [h.1]
  | cons s rest ih =>
    rw [processSections] at h
    cases hc : processConfigKeys cfg s.name with
    | error e => rw [hc] at h; cases h
    | ok config =>
      rw [hc] at h
      dsimp only at h
      cases hd : processDbs cfg s.name config with
      | error e => rw [hd] at h; cases h
      | ok p1 =>
        obtain ⟨dbs1, diags1⟩ := p1
        rw [hd] at h
        dsimp only at h
        cases hr : processSections cfg rest with
        | error e => rw [hr] at h; cases h
        | ok p2 =>
          obtain ⟨dbs2, diags2⟩ := p2
          rw [hr] at h
          cases h
          obtain ⟨ih1, ih2⟩ := ih _ _ hr
          cases htn : tablenameLookup cfg with
          | ok tn =>
            have hpp := processPieces_of_tn_ok cfg config tn htn (piecesOf s.name)
            rw [processDbs, hpp] at hd
            cases hd
            have hsd : sectionDescriptors cfg s =
                (validPieces s.name).map (fun bl => ⟨bl.1, config, bl.2, tn⟩) := by
              simp [sectionDescriptors, hc, htn]
            constructor
            · simp [hsd, ih1, validPieces]
            · intro s' hs'
              rcases List.mem_cons.mp hs' with rfl | hmem
              · simp [hsd]
              · exact ih2 s' hmem
          | error err =>
            obtain ⟨h1, h2⟩ :=
              processPieces_of_tn_error cfg config err htn (piecesOf s.name)
                dbs1 diags1 hd
            have hsd : sectionDescriptors cfg s = [] := by
              simp [sectionDescriptors, hc, htn]
            constructor
            · simp [hsd, ih1, h1]
            · intro s' hs'
              rcases List.mem_cons.mp hs' with rfl | hmem
              · simp [hsd, validPieces, h2]
              · exact ih2 s' hmem

/-- A section whose option resolution fails makes the whole pass fail (with
that error or an earlier one): no partial result is ever returned. -/
lemma processSections_error_of_section (cfg : IniConfig)
    (ss : List IniSection) (s : IniSection) (err : ConfigError)
    (hs : s ∈ ss) (he : processConfigKeys cfg s.name = .error err) :
    ∃ e, processSections cfg ss = .error e := by
  induction ss with
  | nil => cases hs
  | cons s0 rest ih =>
    cases hc : processConfigKeys cfg s0.name with
    | error e => exact ⟨e, by simp [processSections, hc]⟩
    | ok config =>
      rcases List.mem_cons.mp hs with rfl | hmem
      · rw [he] at hc; cases hc
      · obtain ⟨e, hrest⟩ := ih hmem
        cases hd : processDbs cfg s0.name config with
        | error e' => exact ⟨e', by simp [processSections, hc, hd]⟩
        | ok p =>
          obtain ⟨dbs1, diags1⟩ := p
          exact ⟨e, by simp [processSections, hc, hd, hrest]⟩

/-- A full set of required entries with the values of the spec's round-trip
example: `{trials:5, min_mpl:1, max_mpl:4, inc_mpl:1, output:"csv",
workload:"w.txt", output_plots:true}`. -/
def stdEntries : List (String × String) :=
  [("trials", "5"), ("min_mpl", "1"), ("max_mpl", "4"), ("inc_mpl", "1"),
   ("output", "csv"), ("workload", "w.txt"), ("output_plots", "true")]

/-- The coerced option mapping corresponding to `stdEntries`. -/
def stdOpts : List (String × OptionValue) :=
  [("trials", .intVal 5), ("min_mpl", .intVal 1), ("max_mpl", .intVal 4),
   ("inc_mpl", .intVal 1), ("output", .strVal "csv"),
   ("workload", .strVal "w.txt"), ("output_plots", .boolVal true)]

/-- Entries of a `[tablename]` section that lets the (mis-addressed)
table-name lookup succeed: it must contain an option whose *name* is the
value of `DEFAULT_TABLENAME`, plus the required option keys because the
section is also processed as an ordinary section. -/
def tblEntries : List (String × String) := ("usertable", "mytbl") :: stdEntries

/-- One section declaring the supported database `mysql`, with every
required option present and no `tablename` entry anywhere. -/
def cfgC1 : IniConfig := ⟨[], [⟨"mysql", stdEntries⟩]⟩

/-- C1: the claim says a missing `tablename` entry falls back to
`DEFAULT_TABLENAME` and never causes `load` to fail.  On the code, for a
section declaring a supported database with all required options present
and no `tablename` entry, `load` fails with `NoSectionError("tablename")`:
`self.config.get("tablename", DEFAULT_TABLENAME)` addresses a *section*
named `tablename` and an *option* named by `DEFAULT_TABLENAME`, because the
second positional argument of `ConfigParser.get` is the option name, not a
fallback value. -/
theorem c1_tablename_fallback_bug :
    load cfgC1 = .error (.noSection "tablename") := rfl

/-- Header `"foodb, mysql"`, all required options present, no `tablename`
section. -/
def cfgC2fail : IniConfig := ⟨[], [⟨"foodb, mysql", stdEntries⟩]⟩

/-- Header `"foodb, mysql"` together with a `[tablename]` section that lets
the table-name lookup succeed. -/
def cfgC2ok : IniConfig :=
  ⟨[], [⟨"foodb, mysql", stdEntries⟩, ⟨"tablename", tblEntries⟩]⟩

/-- C2: the unsupported entry `foodb` is indeed skipped with a diagnostic
naming it and the supported set, and processing continues to `mysql`; but
the claim's "ingestion does not abort" fails on the code whenever no
`tablename` section exists, because building the descriptor for the valid
`mysql` entry performs the mis-addressed table-name lookup of
`config.py:102`, which raises `NoSectionError("tablename")`.  With a
`[tablename]` section present, the header yields exactly one descriptor
(mysql) and the `foodb` diagnostic, as the claim intends. -/
theorem c2_unsupported_db_skip :
    load cfgC2fail = .error (.noSection "tablename") ∧
    load cfgC2ok = .ok ([⟨"mysql", stdOpts, "", "mytbl"⟩],
      [invalidDbDiag "foodb", invalidDbDiag "tablename"]) :=
  ⟨rfl, rfl⟩

/-- Header `"mysql(a), postgres"`, all required options present, no
`tablename` section. -/
def cfgC5fail : IniConfig := ⟨[], [⟨"mysql(a), postgres", stdEntries⟩]⟩

/-- Header `"mysql(a), postgres"` together with a `[tablename]` section that
lets the table-name lookup succeed. -/
def cfgC5ok : IniConfig :=
  ⟨[], [⟨"mysql(a), postgres", stdEntries⟩, ⟨"tablename", tblEntries⟩]⟩

/-- C5: with the table-name lookup able to succeed, the header
`"mysql(a), postgres"` yields exactly two descriptors in order — bare name
`mysql` with label `"a"`, then bare name `postgres` with empty label — each
carrying the section's resolved option set and the resolved table name.
But at a source with no `tablename` section the same header makes `load`
abort with `NoSectionError("tablename")` (the `config.py:102` slip) instead
of producing the two descriptors, so the claim's unconditional form fails
on the code. -/
theorem c5_label_extraction :
    load cfgC5fail = .error (.noSection "tablename") ∧
    load cfgC5ok = .ok
      ([⟨"mysql", stdOpts, "a", "mytbl"⟩, ⟨"postgres", stdOpts, "", "mytbl"⟩],
       [invalidDbDiag "tablename"]) :=
  ⟨rfl, rfl⟩

/-- A section with `trials` present but unparsable and `output_plots`
absent: both a coercion failure and a missing required key. -/
def cfgC3cex : IniConfig :=
  ⟨[], [⟨"mysql", [("trials", "abc"), ("min_mpl", "1"), ("max_mpl", "4"),
    ("inc_mpl", "1"), ("output", "csv"), ("workload", "w.txt")]⟩]⟩

/-- C3 counterexample: a source in which a section lacks the required key
`output_plots`, yet `load` raises `InvalidOptionType` for `trials` (the
registry key processed first) and no `MissingOptionError` at all — the
claim's promise that a missing key is reported as `MissingOptionError`
naming that key does not hold unconditionally. -/
theorem c3_missing_key_counterexample :
    load cfgC3cex = .error (.invalidOptionType "mysql" "trials" "abc") ∧
    ∀ sec key, load cfgC3cex ≠ .error (.missingOption sec key) := by
  refine ⟨rfl, ?_⟩
  intro sec key h
  rw [show load cfgC3cex = .error (.invalidOptionType "mysql" "trials" "abc")
    from rfl] at h
  simp at h

/-- Processing a concatenated section list: once the prefix succeeds, the
pass continues with the suffix and prepends the prefix's descriptors and
diagnostics. -/
lemma processSections_append (cfg : IniConfig) (l1 l2 : List IniSection)
    (r : List DbSystem × List String)
    (h : processSections cfg l1 = .ok r) :
    processSections cfg (l1 ++ l2) =
      match processSections cfg l2 with
      | .ok r2 => .ok (r.1 ++ r2.1, r.2 ++ r2.2)
      | .error e => .error e := by
  induction l1 generalizing r with
  | nil =>
    rw [processSections] at h
    cases h
    simp only [List.nil_append]
    cases h2 : processSections cfg l2 <;> simp [h2]
  | cons s l1' ih =>
    rw [processSections] at h
    cases hc : processConfigKeys cfg s.name with
    | error e => rw [hc] at h; cases h
    | ok config =>
      rw [hc] at h
      dsimp only at h
      cases hd : processDbs cfg s.name config with
      | error e => rw [hd] at h; cases h
      | ok p1 =>
        obtain ⟨dbs1, diags1⟩ := p1
        rw [hd] at h
        dsimp only at h
        cases hr : processSections cfg l1' with
        | error e => rw [hr] at h; cases h
        | ok p2 =>
          obtain ⟨dbs2, diags2⟩ := p2
          rw [hr] at h
          cases h
          simp only [List.cons_append, processSections, hc, hd, List.append_eq]
          rw [ih _ hr]
          cases processSections cfg l2 <;> simp

/-- C3 (amended): a missing required key always aborts the whole ingestion
with a fatal error and no descriptors (first conjunct: any required key of
the registry, any section of the file); and the reported error is
`MissingOptionError` identifying exactly that section and key whenever the
missing key is the first failure reached in processing order — all earlier
sections process fully and all registry keys before it in the section
coerce successfully (second conjunct). -/
theorem c3_missing_key_aborts :
    (∀ (cfg : IniConfig) (s : IniSection) (k : String) (t : TypeMarker),
        s ∈ cfg.sections → (k, t) ∈ OPTION_KEYS →
        rawGet cfg s.name k = .error (.missingOption s.name k) →
        ∃ e, load cfg = .error e) ∧
    (∀ (cfg : IniConfig) (pre : List IniSection) (s : IniSection)
        (rest : List IniSection) (ks1 ks2 : List (String × TypeMarker))
        (k : String) (t : TypeMarker) (m1 : List (String × OptionValue))
        (r : List DbSystem × List String),
        cfg.sections = pre ++ s :: rest →
        processSections cfg pre = .ok r →
        OPTION_KEYS = ks1 ++ (k, t) :: ks2 →
        processKeys cfg s.name ks1 = .ok m1 →
        rawGet cfg s.name k = .error (.missingOption s.name k) →
        load cfg = .error (.missingOption s.name k)) := by
  constructor
  · intro cfg s k t hs hkt hraw
    obtain ⟨e, he⟩ := processKeys_error_of_mem cfg s.name OPTION_KEYS k t _ hkt hraw
    exact processSections_error_of_section cfg cfg.sections s e hs he
  · intro cfg pre s rest ks1 ks2 k t m1 r hsec hpre hks h1 hmiss
    have hck := coerceKey_rawGet_error cfg s.name k _ hmiss t
    have hpk : processConfigKeys cfg s.name = .error (.missingOption s.name k) := by
      rw [processConfigKeys, hks, processKeys_append cfg s.name ks1 _ m1 h1]
      simp [processKeys, hck]
    have hps : processSections cfg (s :: rest) = .error (.missingOption s.name k) := by
      rw [processSections, hpk]
    rw [load, hsec, processSections_append cfg pre _ r hpre, hps]

/-- A first (and only) section lacking `trials` entirely. -/
def cfgC3wit : IniConfig := ⟨[], [⟨"mysql", [("min_mpl", "1")]⟩]⟩

/-- A first section that processes fully (its only declaration `foodb` is
skipped, so no table-name lookup happens), followed by a section that has
`trials` but lacks `min_mpl`: the first failure reached in processing order
is the missing `min_mpl` of the second section. -/
def cfgC3wit2 : IniConfig :=
  ⟨[], [⟨"foodb", stdEntries⟩,
        ⟨"mysql", [("trials", "7"), ("max_mpl", "4"), ("inc_mpl", "1"),
          ("output", "csv"), ("workload", "w.txt"), ("output_plots", "true")]⟩]⟩

/-- Witness for the amended C3: the abort part at a section missing
`trials`, and the first-failure part reporting `min_mpl` missing from a
non-first section with a non-first registry key. -/
theorem c3_missing_key_aborts_witness :
    (∃ e, load cfgC3wit = .error e) ∧
    load cfgC3wit2 = .error (.missingOption "mysql" "min_mpl") :=
  ⟨c3_missing_key_aborts.1 cfgC3wit ⟨"mysql", [("min_mpl", "1")]⟩ "trials"
      .intMarker (by decide) (by decide) rfl,
   c3_missing_key_aborts.2 cfgC3wit2 [⟨"foodb", stdEntries⟩]
      ⟨"mysql", [("trials", "7"), ("max_mpl", "4"), ("inc_mpl", "1"),
        ("output", "csv"), ("workload", "w.txt"), ("output_plots", "true")]⟩ []
      [("trials", .intMarker)]
      [("max_mpl", .intMarker), ("inc_mpl", .intMarker), ("output", .lowerFn),
       ("workload", .strMarker), ("output_plots", .boolMarker)]
      "min_mpl" .intMarker [("trials", .intVal 7)]
      ([], [invalidDbDiag "foodb"]) rfl rfl rfl rfl rfl⟩

/-- C4: on every successful ingestion, the descriptor list is the in-order
concatenation, over the sections in file order, of each section's
descriptors; each section's contribution (`sectionDescriptors`) lists, in
declaration order, one descriptor per valid comma-separated declaration of
its header. -/
theorem c4_descriptor_order (cfg : IniConfig) (dbs : List DbSystem)
    (diags : List String) (h : load cfg = .ok (dbs, diags)) :
    dbs = (cfg.sections.map (sectionDescriptors cfg)).flatten :=
  (processSections_ok cfg cfg.sections dbs diags h).1

/-- Two sections, one of them contributing two descriptors in header order. -/
def cfgC4wit : IniConfig :=
  ⟨stdEntries, [⟨"postgres, mysql(x)", []⟩, ⟨"tablename", [("usertable", "t4")]⟩]⟩

/-- Witness for C4 at a concrete source. -/
theorem c4_descriptor_order_witness :
    ([⟨"postgres", stdOpts, "", "t4"⟩, ⟨"mysql", stdOpts, "x", "t4"⟩] : List DbSystem) =
      (cfgC4wit.sections.map (sectionDescriptors cfgC4wit)).flatten :=
  c4_descriptor_order cfgC4wit
    [⟨"postgres", stdOpts, "", "t4"⟩, ⟨"mysql", stdOpts, "x", "t4"⟩]
    [invalidDbDiag "tablename"] rfl

/-- All seven required keys present, but `trials` fails integer coercion:
`load` returns no descriptor list at all, refuting C6's unconditional
form. -/
def cfgC6cex : IniConfig :=
  ⟨[], [⟨"mysql", [("trials", "abc"), ("min_mpl", "1"), ("max_mpl", "4"),
    ("inc_mpl", "1"), ("output", "csv"), ("workload", "w.txt"),
    ("output_plots", "true")]⟩]⟩

/-- C6 counterexample: a valid INI source whose only section contains every
required option key, on which `load` nevertheless returns no descriptor
list (it raises `InvalidOptionType` for `trials`), so the claimed length
equation holds for no returned list. -/
theorem c6_length_counterexample :
    load cfgC6cex = .error (.invalidOptionType "mysql" "trials" "abc") ∧
    ∀ res, load cfgC6cex ≠ .ok res := by
  refine ⟨rfl, ?_⟩
  intro res h
  rw [show load cfgC6cex = .error (.invalidOptionType "mysql" "trials" "abc")
    from rfl] at h
  simp at h

/-- C6 (amended): on every source on which `load` succeeds, the length of
the returned descriptor list equals the total number of valid (supported,
non-skipped) comma-separated database declarations summed over all
sections. -/
theorem c6_length_on_success (cfg : IniConfig) (dbs : List DbSystem)
    (diags : List String) (h : load cfg = .ok (dbs, diags)) :
    dbs.length = (cfg.sections.map (fun s => (validPieces s.name).length)).sum := by
  obtain ⟨h1, h2⟩ := processSections_ok cfg cfg.sections dbs diags h
  rw [h1, List.length_flatten, List.map_map]
  refine congrArg List.sum (List.map_congr_left ?_)
  intro s hs
  simpa using h2 s hs

/-- Three declarations in one header, one of them unsupported, plus the
`[tablename]` section (contributing zero declarations). -/
def cfgC6wit : IniConfig :=
  ⟨stdEntries, [⟨"mysql, foodb, postgres", []⟩, ⟨"tablename", [("usertable", "t6")]⟩]⟩

/-- Witness for the amended C6 at a concrete source. -/
theorem c6_length_witness :
    ([⟨"mysql", stdOpts, "", "t6"⟩, ⟨"postgres", stdOpts, "", "t6"⟩] : List DbSystem).length =
      (cfgC6wit.sections.map (fun s => (validPieces s.name).length)).sum :=
  c6_length_on_success cfgC6wit
    [⟨"mysql", stdOpts, "", "t6"⟩, ⟨"postgres", stdOpts, "", "t6"⟩]
    [invalidDbDiag "foodb", invalidDbDiag "tablename"] rfl

/-- Inversion of one step of the key-processing loop. -/
lemma processKeys_ok_cons (cfg : IniConfig) (sec k : String) (t : TypeMarker)
    (rest : List (String × TypeMarker)) (m : List (String × OptionValue))
    (h : processKeys cfg sec ((k, t) :: rest) = .ok m) :
    ∃ v m', coerceKey cfg sec k t = .ok v ∧
      processKeys cfg sec rest = .ok m' ∧ m = (k, v) :: m' := by
  rw [processKeys] at h
  cases hc : coerceKey cfg sec k t with
  | error e => rw [hc] at h; cases h
  | ok v =>
    rw [hc] at h
    dsimp only at h
    cases hr : processKeys cfg sec rest with
    | error e => rw [hr] at h; cases h
    | ok m' =>
      rw [hr] at h
      cases h
      exact ⟨v, m', rfl, rfl, rfl⟩

/-- C7: whenever a section's option set resolves, the mapping's `output`
entry is the raw configured string case-folded to lowercase (the
`lambda s: str(s).lower()` marker of `OPTION_KEYS`, dispatched through the
`callable(t)` branch of `__process_config_keys`). -/
theorem c7_output_lowercased (cfg : IniConfig) (sec : String)
    (m : List (String × OptionValue)) (raw : String)
    (hm : processConfigKeys cfg sec = .ok m)
    (hraw : rawGet cfg sec "output" = .ok raw) :
    assocFind m "output" = some (.strVal (pyLower raw)) := by
  rw [processConfigKeys, OPTION_KEYS] at hm
  obtain ⟨v1, m1, hc1, hm1, rfl⟩ := processKeys_ok_cons _ _ _ _ _ _ hm
  obtain ⟨v2, m2, hc2, hm2, rfl⟩ := processKeys_ok_cons _ _ _ _ _ _ hm1
  obtain ⟨v3, m3, hc3, hm3, rfl⟩ := processKeys_ok_cons _ _ _ _ _ _ hm2
  obtain ⟨v4, m4, hc4, hm4, rfl⟩ := processKeys_ok_cons _ _ _ _ _ _ hm3
  obtain ⟨v5, m5, hc5, hm5, rfl⟩ := processKeys_ok_cons _ _ _ _ _ _ hm4
  rw [coerceKey, hraw] at hc5
  cases hc5
  simp [assocFind]

/-- A section with `output=CSV`. -/
def cfgC7wit : IniConfig :=
  ⟨[], [⟨"mysql", [("trials", "5"), ("min_mpl", "1"), ("max_mpl", "4"),
    ("inc_mpl", "1"), ("output", "CSV"), ("workload", "w.txt"),
    ("output_plots", "yes")]⟩]⟩

/-- The option mapping resolved for `cfgC7wit`'s section. -/
def optsC7 : List (String × OptionValue) :=
  [("trials", .intVal 5), ("min_mpl", .intVal 1), ("max_mpl", .intVal 4),
   ("inc_mpl", .intVal 1), ("output", .strVal "csv"),
   ("workload", .strVal "w.txt"), ("output_plots", .boolVal true)]

/-- Witness for C7: `output=CSV` resolves to the option value `"csv"`. -/
theorem c7_output_lowercased_witness :
    assocFind optsC7 "output" = some (.strVal "csv") :=
  c7_output_lowercased cfgC7wit "mysql" optsC7 "CSV" rfl rfl

/-- C8: `load` is a pure function of the parsed source — the embedding has
no hidden state — so two runs on the same unchanged source yield descriptor
lists equal field-by-field (names, labels, option sets, table names, in the
same order) and the same diagnostics. -/
theorem c8_load_deterministic (cfg : IniConfig)
    (r1 r2 : List DbSystem × List String)
    (h1 : load cfg = .ok r1) (h2 : load cfg = .ok r2) :
    r1.1.map DbSystem.dbname = r2.1.map DbSystem.dbname ∧
    r1.1.map DbSystem.label = r2.1.map DbSystem.label ∧
    r1.1.map DbSystem.config = r2.1.map DbSystem.config ∧
    r1.1.map DbSystem.tablename = r2.1.map DbSystem.tablename ∧
    r1.2 = r2.2 := by
  have h := h1.symm.trans h2
  injection h with h
  subst h
  exact ⟨rfl, rfl, rfl, rfl, rfl⟩

/-- The same database type twice under different labels, plus the
`[tablename]` section. -/
def cfgC8wit : IniConfig :=
  ⟨stdEntries, [⟨"postgres(p1), postgres(p2)", []⟩, ⟨"tablename", [("usertable", "t8")]⟩]⟩

/-- Witness for C8 at a concrete source. -/
theorem c8_load_deterministic_witness :
    let r := ([⟨"postgres", stdOpts, "p1", "t8"⟩, ⟨"postgres", stdOpts, "p2", "t8"⟩],
      [invalidDbDiag "tablename"])
    (r.1.map DbSystem.dbname = r.1.map DbSystem.dbname ∧
     r.1.map DbSystem.label = r.1.map DbSystem.label ∧
     r.1.map DbSystem.config = r.1.map DbSystem.config ∧
     r.1.map DbSystem.tablename = r.1.map DbSystem.tablename ∧
     r.2 = r.2) :=
  c8_load_deterministic cfgC8wit _ _ rfl rfl

/-- A section in which `output_plots` is present with an unrecognized token
but `trials` is absent. -/
def cfgC9cex : IniConfig := ⟨[], [⟨"mysql", [("output_plots", "maybe")]⟩]⟩

/-- C9 counterexample: `output_plots=maybe` is present and unrecognized,
yet option resolution fails with `MissingOptionError` for `trials` (the
registry key processed first), not with `InvalidOptionType` — so the
claim's promised error does not hold unconditionally. -/
theorem c9_output_plots_counterexample :
    processConfigKeys cfgC9cex "mysql" = .error (.missingOption "mysql" "trials") ∧
    ∀ sec key rawv,
      processConfigKeys cfgC9cex "mysql" ≠ .error (.invalidOptionType sec key rawv) := by
  refine ⟨rfl, ?_⟩
  intro sec key rawv h
  rw [show processConfigKeys cfgC9cex "mysql" =
      .error (.missingOption "mysql" "trials") from rfl] at h
  simp at h

/-- C9 (amended): when `output_plots` is present but its value is not one of
the recognized `BOOLEAN_STATES` tokens, option resolution never produces a
coerced value; it fails with `InvalidOptionType` naming the section, the
key and the raw value, provided the six keys processed earlier in the fixed
registry order resolve successfully (otherwise the earlier key's failure is
reported instead). -/
theorem c9_output_plots_invalid (cfg : IniConfig) (sec raw : String)
    (m6 : List (String × OptionValue))
    (h6 : processKeys cfg sec (OPTION_KEYS.take 6) = .ok m6)
    (hraw : rawGet cfg sec "output_plots" = .ok raw)
    (hb : parseIniBool raw = none) :
    processConfigKeys cfg sec = .error (.invalidOptionType sec "output_plots" raw) := by
  have hsplit : OPTION_KEYS =
      OPTION_KEYS.take 6 ++ [("output_plots", TypeMarker.boolMarker)] := rfl
  rw [processConfigKeys, hsplit, processKeys_append cfg sec _ _ _ h6]
  simp [processKeys, coerceKey, getboolean, hraw, hb]

/-- All earlier keys resolve; `output_plots=maybe`. -/
def cfgC9wit : IniConfig :=
  ⟨[], [⟨"pg", [("trials", "3"), ("min_mpl", "2"), ("max_mpl", "8"),
    ("inc_mpl", "2"), ("output", "csv"), ("workload", "wl.txt"),
    ("output_plots", "maybe")]⟩]⟩

/-- Witness for the amended C9 at a concrete source. -/
theorem c9_output_plots_invalid_witness :
    processConfigKeys cfgC9wit "pg" = .error (.invalidOptionType "pg" "output_plots" "maybe") :=
  c9_output_plots_invalid cfgC9wit "pg" "maybe"
    [("trials", .intVal 3), ("min_mpl", .intVal 2), ("max_mpl", .intVal 8),
     ("inc_mpl", .intVal 2), ("output", .strVal "csv"),
     ("workload", .strVal "wl.txt")] rfl rfl rfl

/-- C10: options are resolved before the header's database declarations are
examined (`__process_sections` calls `__process_config_keys` first), so a
section whose header declares only unsupported names — contributing zero
descriptors — must still contain every required option key: a missing
required key in such a section aborts the entire ingestion with no
result. -/
theorem c10_options_resolved_first (cfg : IniConfig) (s : IniSection)
    (hs : s ∈ cfg.sections)
    (hunsup : ∀ p ∈ piecesOf s.name, pyLower (extractLabel p).1 ∉ SUPPORTED_DBS)
    (hmiss : ∃ k t, (k, t) ∈ OPTION_KEYS ∧
      rawGet cfg s.name k = .error (.missingOption s.name k)) :
    validPieces s.name = [] ∧ ∃ e, load cfg = .error e := by
  constructor
  · rw [validPieces, filterValid]
    refine List.filterMap_eq_nil_iff.mpr ?_
    intro p hp
    simp [hunsup p hp]
  · obtain ⟨k, t, hkt, hraw⟩ := hmiss
    obtain ⟨e, he⟩ := processKeys_error_of_mem cfg s.name OPTION_KEYS k t _ hkt hraw
    exact processSections_error_of_section cfg cfg.sections s e hs he

/-- A section declaring only the unsupported `foodb` and containing no
option keys at all. -/
def cfgC10wit : IniConfig := ⟨[], [⟨"foodb", []⟩]⟩

/-- Witness for C10 at a concrete source. -/
theorem c10_options_resolved_first_witness :
    validPieces "foodb" = [] ∧ ∃ e, load cfgC10wit = .error e :=
  c10_options_resolved_first cfgC10wit ⟨"foodb", []⟩ (by decide)
    (by decide) ⟨"trials", .intMarker, by decide, rfl⟩

end Runner
